import Mathlib

/-!
Verification of the quote-bot core (`railway_quote_bot.py`): record
extraction from tabular rows, quote selection, tweet formatting, and the
mark-as-posted write-back.  Cells are modelled as `List Char` (Python
strings), rows as association lists from column name to cell value.
Python truthiness of a string is emptiness of the list; `str.strip()` is
`strip`; `str.lower()` is `lowerCell`.
-/

namespace QuoteBot

/-- A spreadsheet cell value, a Python string. -/
abbrev Cell := List Char

/-- A row mapping column names to cell values (`get_all_records` row dict). -/
abbrev Row := List (String × Cell)

/-- Python `str.strip()`: drop whitespace from both ends. -/
def strip (s : Cell) : Cell :=
  ((s.dropWhile Char.isWhitespace).reverse.dropWhile Char.isWhitespace).reverse

/-- Python `str.lower()` (per-character, ASCII-adequate). -/
def lowerCell (s : Cell) : Cell := s.map Char.toLower

/-- The record built for each usable row in `get_quotes_from_sheet`. -/
structure QuoteRecord where
  text : Cell
  author : Option Cell
  row_index : Nat
  posted : Bool
deriving Repr, DecidableEq

/-- Candidate column names for the quote text (line 98). -/
def textKeys : List String := ["Quote", "Text", "Content", "Message", "quote", "text"]

/-- Candidate column names for the author (line 104). -/
def authorKeys : List String := ["Author", "By", "Source", "author", "by"]

/-- Candidate column names for the posted flag (line 110). -/
def postedKeys : List String := ["Posted", "Tweeted", "Used", "posted", "tweeted", "used"]

/-- Cell values recognized as "already posted" (line 111), lowercased. -/
def postedValues : List Cell := ["yes", "true", "1", "posted", "tweeted"].map String.toList

/-- The loop at lines 98-101 (and 104-107): take the first candidate column
present in the row with a truthy (non-empty) value, and strip it; an empty
value does not break the loop. -/
def resolveField (keys : List String) (row : Row) : Option Cell :=
  match keys with
  | [] => none
  | k :: rest =>
    match List.lookup k row with
    | some v => if v = [] then resolveField rest row else some (strip v)
    | none => resolveField rest row

/-- The loop at lines 110-113: posted becomes true as soon as some candidate
column holds a recognized value; an unrecognized value does not break the
loop. -/
def resolvePosted (keys : List String) (row : Row) : Bool :=
  match keys with
  | [] => false
  | k :: rest =>
    match List.lookup k row with
    | some v => if lowerCell v ∈ postedValues then true else resolvePosted rest row
    | none => resolvePosted rest row

/-- Lines 93-121: build the record for one row (`idx` is the 0-based
position; `row_index = idx + 2`), or drop the row when no non-blank quote
text resolves. -/
def extractRow (idx : Nat) (row : Row) : Option QuoteRecord :=
  match resolveField textKeys row with
  | some t =>
    if t = [] then none
    else some ⟨t, resolveField authorKeys row, idx + 2, resolvePosted postedKeys row⟩
  | none => none

/-- `get_quotes_from_sheet` (lines 86-128) on an already-read row list. -/
def get_quotes_from_sheet (rows : List Row) : List QuoteRecord :=
  rows.enum.filterMap fun p => extractRow p.1 p.2

/-- The `' - '` separator appended before the author (line 165). -/
def SEP : Cell := [' ', '-', ' ']

/-- The `'...'` ellipsis appended after truncation (line 171). -/
def ELLIPSIS : Cell := ['.', '.', '.']

/-- Python `author or ''` combined with the record's optional author:
the author string used by `format_tweet`, empty when absent. -/
def authorOf (q : QuoteRecord) : Cell :=
  match q.author with
  | some a => a
  | none => []

/-- Lines 161-165: the tweet before any length fitting — the text, plus
`' - ' + author` when the author is truthy. -/
def rendered (q : QuoteRecord) : Cell :=
  if authorOf q = [] then q.text else q.text ++ SEP ++ authorOf q

/-- Line 169: `280 - len(' - ') - len(author or '')`, as a Python int. -/
def max_text_len (q : QuoteRecord) : Int :=
  280 - (SEP.length : Int) - ((authorOf q).length : Int)

/-- Lines 171-174: the truncated tweet rebuilt from the cut text. -/
def truncatedTweet (q : QuoteRecord) : Cell :=
  if authorOf q = [] then q.text.take (max_text_len q - 3).toNat ++ ELLIPSIS
  else (q.text.take (max_text_len q - 3).toNat ++ ELLIPSIS) ++ SEP ++ authorOf q

/-- `format_tweet` (lines 155-176). -/
def format_tweet (q : QuoteRecord) : Cell :=
  if (rendered q).length > 280 then
    if max_text_len q > 50 then truncatedTweet q
    else rendered q
  else rendered q

/-- The selection logic inlined at lines 190-198 of `post_quote`, with the
random draw made explicit as an arbitrary natural number reduced modulo the
pool size, and the empty-pool check of line 186 surfaced as `none`. -/
def select (quotes : List QuoteRecord) (draw : Nat) : Option QuoteRecord :=
  if quotes = [] then none
  else
    let unposted := quotes.filter fun q => !q.posted
    if unposted = [] then quotes[draw % quotes.length]?
    else unposted[draw % unposted.length]?

/-- A `worksheet.update_cell(row, col, value)` call recorded by the model. -/
structure CellWrite where
  row : Nat
  col : Nat
  value : Cell
deriving Repr, DecidableEq

/-- Header names recognized at line 139 as an existing posted column. -/
def postedColNames : List Cell := ["posted", "tweeted", "used"].map String.toList

/-- Lines 138-141: 1-based index of the first header whose lowercasing is a
posted-column synonym. -/
def findPostedColAux (i : Nat) (headers : List Cell) : Option Nat :=
  match headers with
  | [] => none
  | h :: rest =>
    if lowerCell h ∈ postedColNames then some (i + 1) else findPostedColAux (i + 1) rest

/-- Lines 134-141 applied to the header row. -/
def findPostedCol (headers : List Cell) : Option Nat := findPostedColAux 0 headers

/-- `mark_as_posted` (lines 130-153).  `updateFails` models any exception
raised by the sheet writes; the body's `try/except` swallows it (logged
only), so the function always returns — with no writes recorded when the
write raised. -/
def mark_as_posted (headers : List Cell) (rowIndex : Nat) (updateFails : Bool) :
    List CellWrite :=
  if updateFails then []
  else
    match findPostedCol headers with
    | some c => [⟨rowIndex, c, "Yes".toList⟩]
    | none =>
      [⟨1, headers.length + 1, "Posted".toList⟩,
       ⟨rowIndex, headers.length + 1, "Yes".toList⟩]

/-- Observable outcome of one `post_quote` run. -/
structure RunResult where
  success : Bool
  publishAttempted : Bool
  cellWrites : List CellWrite
deriving Repr, DecidableEq

/-- `post_quote` (lines 178-224).  `rows` is the sheet snapshot read by
`get_quotes_from_sheet`; `publishResp` is the posting service's
`response.data` identifier (`none` when the response carries no data);
`headers`/`updateFails` parametrize the write-back.  Returns whether the
run succeeded, whether a publish was attempted, and the sheet writes. -/
def post_quote (rows : List Row) (draw : Nat) (publishResp : Option Nat)
    (headers : List Cell) (updateFails : Bool) : RunResult :=
  let quotes := get_quotes_from_sheet rows
  if quotes = [] then ⟨false, false, []⟩
  else
    match select quotes draw with
    | none => ⟨false, false, []⟩
    | some sel =>
      match publishResp with
      | some _ => ⟨true, true, mark_as_posted headers sel.row_index updateFails⟩
      | none => ⟨false, true, []⟩

/-! ### Helper lemmas -/

lemma mem_dropWhile_of_not {p : Char → Bool} {c : Char} (hc : p c = false) :
    ∀ {l : Cell}, c ∈ l → c ∈ l.dropWhile p := by
  intro l hm
  induction l with
  | nil => cases hm
  | cons a l ih =>
    rw [List.dropWhile_cons]
    by_cases hp : p a
    · simp only [hp, if_true]
      rcases List.mem_cons.mp hm with rfl | hm'
      · rw [hp] at hc; cases hc
      · exact ih hm'
    · simp only [hp, if_false]; exact hm

lemma strip_ne_nil {s : Cell} {c : Char} (hc : Char.isWhitespace c = false)
    (hm : c ∈ s) : strip s ≠ [] := by
  unfold strip
  intro h
  rw [List.reverse_eq_nil_iff, List.dropWhile_eq_nil_iff] at h
  have h1 : c ∈ s.dropWhile Char.isWhitespace := mem_dropWhile_of_not hc hm
  have h2 : c ∈ (s.dropWhile Char.isWhitespace).reverse := List.mem_reverse.mpr h1
  have := h c h2
  rw [hc] at this
  cases this

lemma exists_not_ws_of_strip_ne_nil {s : Cell} (h : strip s ≠ []) :
    ∃ c ∈ strip s, Char.isWhitespace c = false := by
  unfold strip at h ⊢
  set m := (s.dropWhile Char.isWhitespace).reverse with hm
  have he : m.dropWhile Char.isWhitespace ≠ [] := by
    intro h0; rw [h0] at h; exact h rfl
  have hlen : 0 < (m.dropWhile Char.isWhitespace).length :=
    List.length_pos.mpr he
  have hhead := List.dropWhile_get_zero_not Char.isWhitespace m hlen
  refine ⟨(m.dropWhile Char.isWhitespace).get ⟨0, hlen⟩, ?_, ?_⟩
  · exact List.mem_reverse.mpr (List.get_mem _ _ _)
  · simpa using hhead

lemma strip_strip_ne_nil {s : Cell} (h : strip s ≠ []) : strip (strip s) ≠ [] := by
  obtain ⟨c, hc, hw⟩ := exists_not_ws_of_strip_ne_nil h
  exact strip_ne_nil hw hc

lemma resolveField_strip :
    ∀ (keys : List String) (row : Row) (t : Cell),
      resolveField keys row = some t → ∃ v, t = strip v := by
  intro keys
  induction keys with
  | nil => intro row t h; simp [resolveField] at h
  | cons k rest ih =>
    intro row t h
    unfold resolveField at h
    cases hl : List.lookup k row with
    | none => rw [hl] at h; exact ih row t h
    | some v =>
      rw [hl] at h
      dsimp only at h
      by_cases hv : v = []
      · rw [if_pos hv] at h; exact ih row t h
      · rw [if_neg hv] at h
        exact ⟨v, (Option.some.injEq _ _ ▸ h).symm⟩

lemma extractRow_some {idx : Nat} {row : Row} {r : QuoteRecord}
    (h : extractRow idx row = some r) :
    resolveField textKeys row = some r.text ∧ r.text ≠ [] := by
  unfold extractRow at h
  cases ht : resolveField textKeys row with
  | none => rw [ht] at h; cases h
  | some t =>
    rw [ht] at h
    dsimp only at h
    by_cases hempty : t = []
    · rw [if_pos hempty] at h; cases h
    · rw [if_neg hempty] at h
      rw [Option.some.injEq] at h
      subst h
      exact ⟨rfl, hempty⟩

lemma resolvePosted_iff (keys : List String) (row : Row) :
    resolvePosted keys row = true ↔
      ∃ k ∈ keys, ∃ v, List.lookup k row = some v ∧ lowerCell v ∈ postedValues := by
  induction keys with
  | nil => simp [resolvePosted]
  | cons k rest ih =>
    unfold resolvePosted
    cases hl : List.lookup k row with
    | none =>
      rw [ih]
      constructor
      · rintro ⟨k', hk', v', hv', hval'⟩
        exact ⟨k', List.mem_cons_of_mem _ hk', v', hv', hval'⟩
      · rintro ⟨k', hk', v', hv', hval'⟩
        rcases List.mem_cons.mp hk' with rfl | hk''
        · rw [hl] at hv'; cases hv'
        · exact ⟨k', hk'', v', hv', hval'⟩
    | some v =>
      by_cases hval : lowerCell v ∈ postedValues
      · simp only [hval, if_true, true_iff]
        exact ⟨k, List.mem_cons_self _ _, v, hl, hval⟩
      · simp only [hval, if_false]
        rw [ih]
        constructor
        · rintro ⟨k', hk', v', hv', hval'⟩
          exact ⟨k', List.mem_cons_of_mem _ hk', v', hv', hval'⟩
        · rintro ⟨k', hk', v', hv', hval'⟩
          rcases List.mem_cons.mp hk' with rfl | hk''
          · rw [hl] at hv'
            cases hv'
            exact absurd hval' hval
          · exact ⟨k', hk'', v', hv', hval'⟩

lemma select_isSome {quotes : List QuoteRecord} (draw : Nat)
    (h : quotes ≠ []) : ∃ r, select quotes draw = some r := by
  unfold select
  rw [if_neg h]
  by_cases hu : quotes.filter (fun q => !q.posted) = []
  · simp only [hu, if_true]
    have hlen : 0 < quotes.length := List.length_pos.mpr h
    have hlt : draw % quotes.length < quotes.length := Nat.mod_lt _ hlen
    exact ⟨quotes[draw % quotes.length], List.getElem?_eq_getElem hlt⟩
  · simp only [hu, if_false]
    have hlen : 0 < (quotes.filter (fun q => !q.posted)).length := List.length_pos.mpr hu
    have hlt : draw % (quotes.filter (fun q => !q.posted)).length <
        (quotes.filter (fun q => !q.posted)).length := Nat.mod_lt _ hlen
    exact ⟨_, List.getElem?_eq_getElem hlt⟩

/-! ### Concrete inputs used by witnesses and counterexamples -/

/-- A short authorless record. -/
def qShort : QuoteRecord := ⟨"hi".toList, none, 2, false⟩

/-- A 300-character authorless record, longer than the tweet limit. -/
def qLong : QuoteRecord := ⟨List.replicate 300 'a', none, 2, false⟩

/-- A record whose author is so long that the truncation budget is ≤ 50. -/
def qLongAuthor : QuoteRecord :=
  ⟨List.replicate 60 'a', some (List.replicate 227 'b'), 2, false⟩

/-- Row whose first text candidate is whitespace-only while a later
candidate holds real text. -/
def rowBlankFirst : Row := [("Quote", " ".toList), ("Text", "hello".toList)]

/-- Row with an all-caps posted column. -/
def rowCapsPosted : Row := [("Quote", "hi".toList), ("POSTED", "yes".toList)]

/-- Row with a leading/trailing-whitespace quote cell. -/
def rowPadded : Row := [("Quote", "  hi  ".toList)]

/-! ### Claims -/

/-- C1: for every QuoteRecord, if the rendered tweet (text, plus " - " and
the author when present) is at most 280 characters, or it exceeds 280 and
`max_text_len = 280 - 3 - len(author or '')` is greater than 50, then
`format_tweet` returns a string of at most 280 characters. -/
theorem C1_format_length_bounded (q : QuoteRecord)
    (h : (rendered q).length ≤ 280 ∨
      ((rendered q).length > 280 ∧ max_text_len q > 50)) :
    (format_tweet q).length ≤ 280 := by
  unfold format_tweet
  by_cases h1 : (rendered q).length > 280
  · rw [if_pos h1]
    rcases h with h | ⟨_, h2⟩
    · omega
    · rw [if_pos h2]
      have hmtl : max_text_len q = 280 - 3 - ((authorOf q).length : Int) := by
        simp [max_text_len, SEP]
      have hell : ELLIPSIS.length = 3 := rfl
      have hsep : SEP.length = 3 := rfl
      unfold truncatedTweet
      by_cases ha : authorOf q = []
      · rw [if_pos ha]
        rw [ha] at hmtl
        have ht : (q.text.take (max_text_len q - 3).toNat).length =
            min (max_text_len q - 3).toNat q.text.length := List.length_take ..
        simp only [List.length_append]
        omega
      · rw [if_neg ha]
        have ht : (q.text.take (max_text_len q - 3).toNat).length =
            min (max_text_len q - 3).toNat q.text.length := List.length_take ..
        simp only [List.length_append]
        omega
  · rw [if_neg h1]
    omega

/-- Witness for C1 at a short authorless record. -/
theorem C1_format_length_bounded_witness : (format_tweet qShort).length ≤ 280 :=
  C1_format_length_bounded qShort (Or.inl (by decide))

set_option maxRecDepth 8000 in
/-- C4 counterexample: for the 300-character authorless record the output of
`format_tweet` has length 277, not 280 as the claim requires. -/
theorem C4_budget_counterexample :
    (format_tweet qLong).length = 277 ∧ ¬(format_tweet qLong).length = 280 := by
  decide

/-- C4 amended: for every QuoteRecord without a (truthy) author whose text
exceeds 280 characters, the budget `max_text_len` is 277 — the separator
length is subtracted even though no author is present — so the output is
the text cut to 274 characters followed by "...", exactly 277 characters. -/
theorem C4_truncation_without_author (q : QuoteRecord)
    (ha : authorOf q = []) (hl : q.text.length > 280) :
    max_text_len q = 277 ∧
    format_tweet q = q.text.take 274 ++ ELLIPSIS ∧
    (format_tweet q).length = 277 := by
  have hm : max_text_len q = 277 := by simp [max_text_len, ha, SEP]
  have hr : rendered q = q.text := by simp [rendered, ha]
  have h1 : (rendered q).length > 280 := by rw [hr]; exact hl
  have hfmt : format_tweet q = q.text.take 274 ++ ELLIPSIS := by
    unfold format_tweet truncatedTweet
    rw [if_pos h1, if_pos (by rw [hm]; norm_num), if_pos ha, hm]
    rfl
  refine ⟨hm, hfmt, ?_⟩
  rw [hfmt]
  have ht : (q.text.take 274).length = min 274 q.text.length := List.length_take ..
  have hell : ELLIPSIS.length = 3 := rfl
  simp only [List.length_append]
  omega

set_option maxRecDepth 8000 in
/-- Witness for the amended C4 at the 300-character record. -/
theorem C4_truncation_without_author_witness :
    max_text_len qLong = 277 ∧
    format_tweet qLong = qLong.text.take 274 ++ ELLIPSIS ∧
    (format_tweet qLong).length = 277 :=
  C4_truncation_without_author qLong rfl (by decide)

/-- C9: for every QuoteRecord with a (truthy) author whose rendered tweet
exceeds 280 characters while `max_text_len ≤ 50`, `format_tweet` returns
the rendered tweet completely unmodified, so the output still exceeds the
280-character limit. -/
theorem C9_no_fallback_when_budget_small (q : QuoteRecord) (a : Cell)
    (ha : q.author = some a) (hne : a ≠ [])
    (hlen : (q.text ++ SEP ++ a).length > 280) (hm : max_text_len q ≤ 50) :
    format_tweet q = q.text ++ SEP ++ a ∧ (format_tweet q).length > 280 := by
  have hA : authorOf q = a := by simp [authorOf, ha]
  have hr : rendered q = q.text ++ SEP ++ a := by
    unfold rendered
    rw [hA, if_neg hne]
  have h1 : (rendered q).length > 280 := by rw [hr]; exact hlen
  have hfmt : format_tweet q = rendered q := by
    unfold format_tweet
    rw [if_pos h1, if_neg (by omega)]
  refine ⟨by rw [hfmt, hr], ?_⟩
  rw [hfmt]
  exact h1

set_option maxRecDepth 8000 in
/-- Witness for C9 at a record with a 227-character author. -/
theorem C9_no_fallback_when_budget_small_witness :
    format_tweet qLongAuthor = qLongAuthor.text ++ SEP ++ List.replicate 227 'b' ∧
    (format_tweet qLongAuthor).length > 280 :=
  C9_no_fallback_when_budget_small qLongAuthor (List.replicate 227 'b')
    rfl (by decide) (by decide) (by decide)

/-- C2 counterexample: in a row whose first present text candidate column
("Quote") holds a whitespace-only value while a later candidate ("Text")
holds non-blank text, extraction drops the row entirely instead of using
the later column. -/
theorem C2_first_candidate_counterexample :
    extractRow 0 rowBlankFirst = none ∧
    get_quotes_from_sheet [rowBlankFirst] = [] := by
  decide

/-- C2 amended: extraction resolves the text as the first candidate column
present in the row with a non-empty raw (untrimmed) value; that value is
then trimmed, and the row is dropped whenever the trimmed result is empty,
even when a later candidate column holds non-blank text.  Stated for a row
whose "Quote" column — the highest-priority candidate — holds a non-empty
value `v`. -/
theorem C2_first_truthy_candidate (idx : Nat) (row : Row) (v : Cell)
    (hq : List.lookup "Quote" row = some v) (hv : v ≠ []) :
    extractRow idx row =
      if strip v = [] then none
      else some ⟨strip v, resolveField authorKeys row, idx + 2,
        resolvePosted postedKeys row⟩ := by
  have ht : resolveField textKeys row = some (strip v) := by
    unfold textKeys resolveField
    rw [hq]
    dsimp only
    rw [if_neg hv]
  unfold extractRow
  rw [ht]

/-- Witness for the amended C2 at a padded quote cell. -/
theorem C2_first_truthy_candidate_witness :
    extractRow 0 rowPadded =
      if strip "  hi  ".toList = [] then none
      else some ⟨strip "  hi  ".toList, resolveField authorKeys rowPadded, 2,
        resolvePosted postedKeys rowPadded⟩ :=
  C2_first_truthy_candidate 0 rowPadded "  hi  ".toList (by decide) (by decide)

/-- C3 counterexample: a row whose posted column is spelled "POSTED" (a
casing outside the recognized spellings) with value "yes" yields a record
with `posted = false`, not `true` as the claim requires. -/
theorem C3_caps_column_counterexample :
    extractRow 0 rowCapsPosted = some ⟨"hi".toList, none, 2, false⟩ := by
  decide

/-- C3 amended: posted-flag recognition is case-insensitive on the cell
value, but on the column name only the exact spellings Posted, Tweeted,
Used, posted, tweeted, used are recognized: whenever one of those six
columns is present with a value whose lowercasing is in
{"yes","true","1","posted","tweeted"}, the row is marked posted. -/
theorem C3_posted_value_case_insensitive (row : Row) (k : String) (v : Cell)
    (hk : k ∈ postedKeys) (hv : List.lookup k row = some v)
    (hval : lowerCell v ∈ postedValues) :
    resolvePosted postedKeys row = true :=
  (resolvePosted_iff postedKeys row).mpr ⟨k, hk, v, hv, hval⟩

/-- Witness for the amended C3: a "Posted" column holding "YES" (mixed-case
value) marks the row posted. -/
theorem C3_posted_value_case_insensitive_witness :
    resolvePosted postedKeys [("Posted", "YES".toList)] = true :=
  C3_posted_value_case_insensitive [("Posted", "YES".toList)] "Posted"
    "YES".toList (by decide) (by decide) (by decide)

/-- C5: for every quote list containing at least one unposted record, and
every random draw, the selected record is unposted and belongs to the
unposted subset. -/
theorem C5_select_prefers_unposted (quotes : List QuoteRecord) (draw : Nat)
    (h : ∃ q ∈ quotes, q.posted = false) :
    ∃ r, select quotes draw = some r ∧ r.posted = false ∧
      r ∈ quotes.filter (fun q => !q.posted) := by
  obtain ⟨q, hq, hqp⟩ := h
  have hne : quotes ≠ [] := by rintro rfl; cases hq
  have hu : q ∈ quotes.filter (fun q => !q.posted) := by
    rw [List.mem_filter]
    exact ⟨hq, by rw [hqp]; rfl⟩
  have hune : quotes.filter (fun q => !q.posted) ≠ [] := by
    intro h0; rw [h0] at hu; cases hu
  have hlen : 0 < (quotes.filter (fun q => !q.posted)).length :=
    List.length_pos.mpr hune
  have hlt : draw % (quotes.filter (fun q => !q.posted)).length <
      (quotes.filter (fun q => !q.posted)).length := Nat.mod_lt _ hlen
  refine ⟨(quotes.filter (fun q => !q.posted))[draw % (quotes.filter (fun q => !q.posted)).length], ?_, ?_, ?_⟩
  · unfold select
    rw [if_neg hne]
    simp only [hune, if_false]
    exact List.getElem?_eq_getElem hlt
  · have hmem := List.getElem_mem hlt
    have := (List.mem_filter.mp hmem).2
    simpa using this
  · exact List.getElem_mem hlt

/-- Witness for C5 at a one-element unposted pool. -/
theorem C5_select_prefers_unposted_witness :
    ∃ r, select [qShort] 0 = some r ∧ r.posted = false ∧
      r ∈ [qShort].filter (fun q => !q.posted) :=
  C5_select_prefers_unposted [qShort] 0 ⟨qShort, by decide, rfl⟩

/-- C6: when extraction yields no records, selection reports the empty pool
(`none`) and the run fails without attempting a publish. -/
theorem C6_empty_pool_no_publish (rows : List Row) (draw : Nat)
    (pub : Option Nat) (headers : List Cell) (wf : Bool)
    (h : get_quotes_from_sheet rows = []) :
    select (get_quotes_from_sheet rows) draw = none ∧
    post_quote rows draw pub headers wf = ⟨false, false, []⟩ := by
  constructor
  · rw [h]
    rfl
  · unfold post_quote
    rw [h]
    rfl

/-- Witness for C6 at a sheet whose single row has no text column. -/
theorem C6_empty_pool_no_publish_witness :
    select (get_quotes_from_sheet [[("Author", "x".toList)]]) 0 = none ∧
    post_quote [[("Author", "x".toList)]] 0 (some 1) [] false =
      ⟨false, false, []⟩ :=
  C6_empty_pool_no_publish [[("Author", "x".toList)]] 0 (some 1) [] false
    (by decide)

/-- C7: every record produced by extraction has text that is non-empty
after trimming whitespace. -/
theorem C7_extracted_text_nonblank (rows : List Row) (r : QuoteRecord)
    (h : r ∈ get_quotes_from_sheet rows) : strip r.text ≠ [] := by
  unfold get_quotes_from_sheet at h
  obtain ⟨p, _, he⟩ := List.mem_filterMap.mp h
  obtain ⟨ht, hne⟩ := extractRow_some he
  obtain ⟨v, hv⟩ := resolveField_strip textKeys p.2 r.text ht
  rw [hv] at hne ⊢
  exact strip_strip_ne_nil hne

/-- Witness for C7 at a one-row sheet. -/
theorem C7_extracted_text_nonblank_witness :
    strip (⟨"hi".toList, none, 2, false⟩ : QuoteRecord).text ≠ [] :=
  C7_extracted_text_nonblank [[("Quote", "hi".toList)]]
    ⟨"hi".toList, none, 2, false⟩ (by decide)

/-- C8: whenever the pool is non-empty and the publish call returns an
identifier, the run reports success — for every value of the write-back
failure flag, since `mark_as_posted` traps its own errors. -/
theorem C8_success_despite_writeback_failure (rows : List Row) (draw : Nat)
    (headers : List Cell) (wf : Bool) (tid : Nat)
    (h : get_quotes_from_sheet rows ≠ []) :
    (post_quote rows draw (some tid) headers wf).success = true ∧
    (post_quote rows draw (some tid) headers wf).publishAttempted = true := by
  obtain ⟨r, hr⟩ := select_isSome draw h
  unfold post_quote
  rw [if_neg h, hr]
  exact ⟨rfl, rfl⟩

/-- Witness for C8 with the write-back raising (`wf = true`). -/
theorem C8_success_despite_writeback_failure_witness :
    (post_quote [[("Quote", "hi".toList)]] 0 (some 1) ["Notes".toList] true).success = true ∧
    (post_quote [[("Quote", "hi".toList)]] 0 (some 1) ["Notes".toList] true).publishAttempted = true :=
  C8_success_despite_writeback_failure [[("Quote", "hi".toList)]] 0
    ["Notes".toList] true 1 (by decide)

/-- C10: posted-flag resolution is existential over the candidate columns —
a row is marked posted exactly when some candidate column among Posted,
Tweeted, Used, posted, tweeted, used holds a recognized value; in
particular a row with Posted = "no" but Tweeted = "yes" is marked posted,
the scan not stopping at the first candidate column present. -/
theorem C10_posted_flag_existential :
    (∀ row : Row, resolvePosted postedKeys row = true ↔
      ∃ k ∈ postedKeys, ∃ v, List.lookup k row = some v ∧
        lowerCell v ∈ postedValues) ∧
    resolvePosted postedKeys
      [("Posted", "no".toList), ("Tweeted", "yes".toList)] = true :=
  ⟨fun row => resolvePosted_iff postedKeys row, by decide⟩

end QuoteBot
